import Mathlib

/-!
Verification development for the PTY session core of the specflux repository:
a shallow embedding of `src/src-tauri/src/pty/session.rs` (the Session object)
and `src/src-tauri/src/pty/manager.rs` (the Session registry), together with
theorems settling the specified properties of spawn, write, resize, close,
enumeration, and the background reader loop.

Modelling conventions:
- Machine byte values are `UInt8` used only as opaque data (no arithmetic).
- The opaque write handle (`Box<dyn Write + Send>`) is modelled by a stream
  state recording the bytes accepted so far plus the behaviour of the
  underlying stream (whether it rejects the next write or flush).
- The opaque master handle (`Box<dyn MasterPty + Send>`) is modelled by the
  current PTY geometry plus whether the control surface rejects a resize.
- The external PTY system, the SHELL environment variable, the platform
  test, and the four fallible calls inside spawn are modelled by an oracle
  structure `PtyEnv` fixing the outcome of each external call.
- The registry `RwLock<HashMap<String, PtySession>>` is modelled
  extensionally by an association list with first-match lookup; insert
  replaces any entry with the same key and remove erases the key, which is
  the observable behaviour of the HashMap operations used by the source.
- The background reader loop is a function of the trace of results the
  cloned read handle returns (`ReadResult` list) and of the value the
  shared atomic liveness flag shows at each iteration (`running : Nat →
  Bool`); it yields the list of events the loop emits, in order.
-/

/-- Geometry record mirroring `portable_pty::PtySize` as used by the source:
rows, cols, pixel_width, pixel_height. -/
structure PtySize where
  rows : Nat
  cols : Nat
  pixel_width : Nat
  pixel_height : Nat
deriving DecidableEq, Repr

/-- The initial geometry passed to `openpty` in `PtySession::spawn`
(session.rs lines 51-58): 24 rows, 80 cols, zero pixel dimensions. -/
def initialPtySize : PtySize :=
  { rows := 24, cols := 80, pixel_width := 0, pixel_height := 0 }

/-- Model of the opaque PTY write handle: the bytes the underlying stream
has accepted, and whether the stream rejects the next `write_all` or the
next `flush` (carrying the I/O error text it would report). -/
structure WriterState where
  buf : List UInt8
  writeErr : Option String
  flushErr : Option String
deriving DecidableEq, Repr

/-- Model of the opaque PTY master handle: its current geometry and whether
the control surface rejects a resize request. -/
structure MasterState where
  size : PtySize
  resizeErr : Option String
deriving DecidableEq, Repr

/-- Model of `PtySession` (session.rs lines 32-38): the retained session
identifier, the mutex-guarded writer, the mutex-guarded master, and the
shared atomic liveness flag `running`. The detached reader thread handle
`_reader_handle` carries no observable state and is not modelled. -/
structure PtySession where
  session_id : String
  writer : WriterState
  master : MasterState
  running : Bool
deriving DecidableEq, Repr

/-- Oracle fixing the outcome of every external call made by
`PtySession::spawn`: the `openpty` call, the SHELL environment variable,
the platform test `cfg!(windows)`, the `spawn_command` call, the
`take_writer` call and the `try_clone_reader` call. A `some e` entry means
the corresponding call fails with error text `e`. -/
structure PtyEnv where
  openptyErr : Option String
  shellVar : Option String
  isWindows : Bool
  spawnErr : Option String
  writerErr : Option String
  readerErr : Option String
deriving DecidableEq, Repr

/-- Model of the `CommandBuilder` value assembled in session.rs lines
69-89: program, argument list, working directory, and the environment
entries in the order `cmd.env` is called (later calls override earlier
ones for the same key). -/
structure CommandState where
  program : String
  args : List String
  cmdCwd : Option String
  envs : List (String × String)
deriving DecidableEq, Repr

/-- Effective value of a key among `CommandBuilder` environment entries:
the last `cmd.env` call for the key wins. -/
def envValue (envs : List (String × String)) (key : String) : Option String :=
  match envs with
  | [] => none
  | (k, v) :: rest =>
      match envValue rest key with
      | some v2 => some v2
      | none => if k = key then some v else none

/-- Shell resolution of session.rs lines 61-67: the SHELL environment
variable, defaulting to cmd.exe on Windows and /bin/bash elsewhere. -/
def shellFor (penv : PtyEnv) : String :=
  match penv.shellVar with
  | some s => s
  | none => if penv.isWindows then "cmd.exe" else "/bin/bash"

/-- The command built in session.rs lines 69-89: the resolved shell with
arguments -l and -i (interactive login shell), the caller working
directory, the caller environment entries in order, then the forced
`TERM=xterm-256color` entry appended last so it overrides any
caller-supplied TERM. -/
def buildCommand (shell : String) (cwd : Option String)
    (env : Option (List (String × String))) : CommandState :=
  { program := shell
    args := ["-l", "-i"]
    cmdCwd := cwd
    envs := (match env with | some l => l | none => []) ++
      [("TERM", "xterm-256color")] }

/-- Model of `PtySession::spawn` (session.rs lines 42-126): openpty with
`initialPtySize`, shell resolution, command build, `spawn_command`,
`take_writer`, `try_clone_reader`, each failing with the formatted error
of the source; on success a session with a fresh writer, the master at
the allocated geometry, and the liveness flag set true. -/
def PtySession.spawn (session_id : String) (cwd : Option String)
    (env : Option (List (String × String))) (penv : PtyEnv) :
    Except String PtySession :=
  match penv.openptyErr with
  | some e => Except.error ("Failed to open PTY: " ++ e)
  | none =>
    let shell := shellFor penv
    let _cmd := buildCommand shell cwd env
    match penv.spawnErr with
    | some e => Except.error ("Failed to spawn shell: " ++ e)
    | none =>
      match penv.writerErr with
      | some e => Except.error ("Failed to get writer: " ++ e)
      | none =>
        match penv.readerErr with
        | some e => Except.error ("Failed to clone reader: " ++ e)
        | none =>
            Except.ok
              { session_id := session_id
                writer := { buf := [], writeErr := none, flushErr := none }
                master := { size := initialPtySize, resizeErr := none }
                running := true }

/-- Bool test of success of an Except result. -/
def exceptOk {α : Type} (r : Except String α) : Bool :=
  match r with
  | Except.ok _ => true
  | Except.error _ => false

/-- The conjunction of the four external calls of spawn succeeding. -/
def spawnOk (penv : PtyEnv) : Bool :=
  penv.openptyErr.isNone && penv.spawnErr.isNone &&
    penv.writerErr.isNone && penv.readerErr.isNone

/-- Model of `PtySession::write` (session.rs lines 180-189): under the
writer lock, `write_all` of the whole byte sequence then `flush`, each
failure formatted and returned to the caller; the session value after the
call is returned alongside the result. -/
def PtySession.write (s : PtySession) (data : List UInt8) :
    Except String Unit × PtySession :=
  match s.writer.writeErr with
  | some e => (Except.error ("Failed to write to PTY: " ++ e), s)
  | none =>
      let written : PtySession :=
        { s with writer := { s.writer with buf := s.writer.buf ++ data } }
      match s.writer.flushErr with
      | some e => (Except.error ("Failed to flush PTY: " ++ e), written)
      | none => (Except.ok (), written)

/-- Model of `PtySession::resize` (session.rs lines 192-203): under the
master lock, apply the new character-cell geometry with zero pixel
dimensions, or fail with the formatted resize error. -/
def PtySession.resize (s : PtySession) (cols rows : Nat) :
    Except String Unit × PtySession :=
  match s.master.resizeErr with
  | some e => (Except.error ("Failed to resize PTY: " ++ e), s)
  | none =>
      (Except.ok (),
        { s with master :=
          { s.master with size :=
            { rows := rows, cols := cols, pixel_width := 0, pixel_height := 0 } } })

/-- Model of `PtySession::close` (session.rs lines 212-216): store false
into the shared liveness flag; nothing else is touched and the reader
thread is not awaited. -/
def PtySession.close (s : PtySession) : PtySession :=
  { s with running := false }

/-- Model of `impl Drop for PtySession` (session.rs lines 219-223): drop
invokes close. -/
def PtySession.drop (s : PtySession) : PtySession :=
  s.close

/-- One result of a `reader.read(&mut buffer)` call in the reader loop:
`ok data` models `Ok(n)` with `data` the bytes placed in the buffer
(`ok []` is `Ok(0)`, end of stream), `err e` models `Err(e)`. -/
inductive ReadResult where
  | ok (data : List UInt8)
  | err (e : String)
deriving DecidableEq, Repr

/-- An event emitted to the frontend by the reader loop: the
terminal-output payload or the terminal-exit payload of session.rs
lines 14-28. -/
inductive TerminalEvent where
  | output (session_id : String) (data : List UInt8)
  | exit (session_id : String) (exit_code : Option Int)
deriving DecidableEq, Repr

/-- The fixed reader buffer size of session.rs line 135. -/
def readBufferSize : Nat := 4096

/-- Model of `PtySession::read_output` (session.rs lines 129-177): each
iteration first loads the liveness flag and breaks silently when it is
false; otherwise it reads once more from the trace: zero bytes emits one
exit event with code 0 and breaks, a positive read emits one output event
with exactly the bytes read and continues, a read error emits one exit
event with no code and breaks. An exhausted trace models a loop still
blocked in `read` with no further event yet. `running i` is the flag
value the iteration consuming the i-th trace entry observes. -/
def read_output (session_id : String) (running : Nat → Bool) :
    List ReadResult → List TerminalEvent
  | [] => []
  | r :: rest =>
    if running 0 = true then
      match r with
      | ReadResult.ok [] => [TerminalEvent.exit session_id (some 0)]
      | ReadResult.ok (b :: bs) =>
          TerminalEvent.output session_id (b :: bs) ::
            read_output session_id (fun i => running (i + 1)) rest
      | ReadResult.err _ => [TerminalEvent.exit session_id none]
    else []

/-- A read result that keeps the loop running: a positive number of bytes. -/
def isPositive (r : ReadResult) : Bool :=
  match r with
  | ReadResult.ok [] => false
  | ReadResult.ok (_ :: _) => true
  | ReadResult.err _ => false

/-- The bytes carried by a read result. -/
def dataOf (r : ReadResult) : List UInt8 :=
  match r with
  | ReadResult.ok d => d
  | ReadResult.err _ => []

/-- The payloads of the output events of an event list, in order. -/
def outputsOf (events : List TerminalEvent) : List (List UInt8) :=
  events.filterMap (fun e =>
    match e with
    | TerminalEvent.output _ d => some d
    | TerminalEvent.exit _ _ => none)

/-- The registry mapping of `PtyState` (manager.rs line 14), modelled
extensionally as an association list from session identifier to session. -/
abbrev Registry := List (String × PtySession)

/-- The empty registry produced by `PtyState::new` and `Default`. -/
def emptyRegistry : Registry := []

/-- First-match lookup, the observable behaviour of `HashMap::get`. -/
def mapGet (st : Registry) (k : String) : Option PtySession :=
  match st with
  | [] => none
  | (k2, v) :: rest => if k2 = k then some v else mapGet rest k

/-- Key membership, the observable behaviour of `HashMap::contains_key`. -/
def mapContains (st : Registry) (k : String) : Bool :=
  (mapGet st k).isSome

/-- Key removal, the observable behaviour of `HashMap::remove`. -/
def mapRemove (st : Registry) (k : String) : Registry :=
  match st with
  | [] => []
  | (k2, v) :: rest =>
      if k2 = k then mapRemove rest k else (k2, v) :: mapRemove rest k

/-- Keyed insert, the observable behaviour of `HashMap::insert` (the key
maps to the new value afterwards; iteration order is unspecified). -/
def mapInsert (st : Registry) (k : String) (v : PtySession) : Registry :=
  (k, v) :: mapRemove st k

/-- Model of `PtyState::spawn_session` (manager.rs lines 26-51): existence
check under the read lock, failing with the duplicate error; otherwise
`PtySession::spawn`, whose failure is propagated; on success the session
is inserted under the write lock. -/
def spawn_session (st : Registry) (session_id : String) (cwd : Option String)
    (env : Option (List (String × String))) (penv : PtyEnv) :
    Except String Unit × Registry :=
  if mapContains st session_id = true then
    (Except.error ("Session " ++ session_id ++ " already exists"), st)
  else
    match PtySession.spawn session_id cwd env penv with
    | Except.error e => (Except.error e, st)
    | Except.ok s => (Except.ok (), mapInsert st session_id s)

/-- Model of `PtyState::write_to_session` (manager.rs lines 54-60):
lookup under the read lock, failing with the not-found error; otherwise
delegate to `PtySession::write`, whose mutation of the addressed session
is recorded at the same key. -/
def write_to_session (st : Registry) (session_id : String)
    (data : List UInt8) : Except String Unit × Registry :=
  match mapGet st session_id with
  | none => (Except.error ("Session " ++ session_id ++ " not found"), st)
  | some s =>
      let res := s.write data
      (res.1, mapInsert st session_id res.2)

/-- Model of `PtyState::resize_session` (manager.rs lines 63-69): lookup
under the read lock, failing with the not-found error; otherwise delegate
to `PtySession::resize`. -/
def resize_session (st : Registry) (session_id : String)
    (cols rows : Nat) : Except String Unit × Registry :=
  match mapGet st session_id with
  | none => (Except.error ("Session " ++ session_id ++ " not found"), st)
  | some s =>
      let res := s.resize cols rows
      (res.1, mapInsert st session_id res.2)

/-- Model of `PtyState::close_session` (manager.rs lines 72-80): removal
under the write lock; when the key was present, `PtySession::close` is
invoked on the removed instance inside the same critical section and the
call succeeds; otherwise the not-found error. -/
def close_session (st : Registry) (session_id : String) :
    Except String Unit × Registry :=
  match mapGet st session_id with
  | some s =>
      let _closed := s.close
      (Except.ok (), mapRemove st session_id)
  | none => (Except.error ("Session " ++ session_id ++ " not found"), st)

/-- Model of `PtyState::list_sessions` (manager.rs lines 83-86): the keys
of the mapping, in implementation-defined order. -/
def list_sessions (st : Registry) : List String :=
  st.map Prod.fst

/-- Model of `PtyState::has_session` (manager.rs lines 89-92). -/
def has_session (st : Registry) (session_id : String) : Bool :=
  mapContains st session_id

/-- One registry operation of a client history: the four mutating entry
points of `PtyState`, with the spawn oracle recorded per call. -/
inductive Op where
  | spawn (id : String) (cwd : Option String)
      (env : Option (List (String × String))) (penv : PtyEnv)
  | write (id : String) (data : List UInt8)
  | resize (id : String) (cols rows : Nat)
  | close (id : String)

/-- Apply one operation to a registry state. -/
def applyOp (st : Registry) : Op → Except String Unit × Registry
  | Op.spawn id cwd env penv => spawn_session st id cwd env penv
  | Op.write id data => write_to_session st id data
  | Op.resize id cols rows => resize_session st id cols rows
  | Op.close id => close_session st id

/-- Run a history of operations from a registry state. -/
def runOps (st : Registry) : List Op → Registry
  | [] => st
  | op :: rest => runOps (applyOp st op).2 rest

/-- Whether an operation is a spawn addressed to the given identifier. -/
def isSpawnOf (op : Op) (id : String) : Bool :=
  match op with
  | Op.spawn id2 _ _ _ => decide (id2 = id)
  | _ => false

/-- Modelled from the spec: the liveness of one identifier along a history,
following the words `has_session(id) returns true if and only if the most
recent successful spawn_session(id) has not been followed by a successful
close_session(id)`. A spawn for the identifier makes it alive exactly when
it would succeed (identifier currently dead and every external spawn call
succeeding); a close for the identifier leaves it dead (a successful close
kills it, a close of a dead identifier fails and changes nothing); writes,
resizes and operations for other identifiers never change it. -/
def stepAlive (id : String) (alive : Bool) : Op → Bool
  | Op.spawn id2 _ _ penv =>
      if id2 = id ∧ alive = false ∧ spawnOk penv = true then true else alive
  | Op.close id2 => if id2 = id then false else alive
  | Op.write _ _ => alive
  | Op.resize _ _ _ => alive

/-- Modelled from the spec: fold of `stepAlive` over a history. -/
def specAlive (id : String) : List Op → Bool → Bool
  | [], alive => alive
  | op :: rest, alive => specAlive id rest (stepAlive id alive op)

/-- A healthy sample writer used by concrete witnesses. -/
def sampleWriter : WriterState :=
  { buf := [], writeErr := none, flushErr := none }

/-- A healthy sample master used by concrete witnesses. -/
def sampleMaster : MasterState :=
  { size := initialPtySize, resizeErr := none }

/-- A sample live session used by concrete witnesses. -/
def sampleSession : PtySession :=
  { session_id := "t1", writer := sampleWriter, master := sampleMaster,
    running := true }

/-- A sample registry holding one session under "t1". -/
def sampleRegistry : Registry := [("t1", sampleSession)]

/-- A sample oracle on which every external spawn call succeeds. -/
def samplePtyEnv : PtyEnv :=
  { openptyErr := none, shellVar := none, isWindows := false,
    spawnErr := none, writerErr := none, readerErr := none }

/-! ## Map lemmas -/

theorem mapGet_mapRemove (st : Registry) (k k2 : String) :
    mapGet (mapRemove st k) k2 = if k = k2 then none else mapGet st k2 := by
  induction st with
  | nil => simp [mapGet, mapRemove]
  | cons p rest ih =>
      obtain ⟨k3, v⟩ := p
      by_cases h3 : k3 = k
      · subst h3
        by_cases h2 : k3 = k2
        · subst h2
          simp [mapRemove, mapGet, ih]
        · simp [mapRemove, mapGet, h2, ih]
      · by_cases h2 : k3 = k2
        · subst h2
          have hk : ¬ k = k3 := fun h => h3 h.symm
          simp [mapRemove, mapGet, h3, hk]
        · simp [mapRemove, mapGet, h3, h2, ih]

theorem mapGet_mapInsert (st : Registry) (k k2 : String) (v : PtySession) :
    mapGet (mapInsert st k v) k2 =
      if k = k2 then some v else mapGet st k2 := by
  by_cases h : k = k2
  · subst h
    simp [mapInsert, mapGet]
  · simp [mapInsert, mapGet, h, mapGet_mapRemove]

theorem mapContains_mapInsert (st : Registry) (k k2 : String) (v : PtySession) :
    mapContains (mapInsert st k v) k2 =
      if k = k2 then true else mapContains st k2 := by
  by_cases h : k = k2 <;> simp [mapContains, mapGet_mapInsert, h]

theorem mapContains_mapRemove (st : Registry) (k k2 : String) :
    mapContains (mapRemove st k) k2 =
      if k = k2 then false else mapContains st k2 := by
  by_cases h : k = k2 <;> simp [mapContains, mapGet_mapRemove, h]

theorem mapGet_eq_none_of_not_contains (st : Registry) (k : String)
    (h : mapContains st k = false) : mapGet st k = none := by
  unfold mapContains at h
  cases hg : mapGet st k with
  | none => rfl
  | some s => rw [hg] at h; simp at h

theorem mem_list_sessions_iff (st : Registry) (k : String) :
    k ∈ list_sessions st ↔ mapContains st k = true := by
  induction st with
  | nil => simp [list_sessions, mapContains, mapGet]
  | cons p rest ih =>
      obtain ⟨k2, v⟩ := p
      by_cases h : k2 = k
      · subst h
        simp [list_sessions, mapContains, mapGet]
      · simp [list_sessions, mapContains, mapGet, h, Ne.symm h] at ih ⊢
        exact ih

/-! ## Session-level lemmas -/

theorem spawn_ok_iff (session_id : String) (cwd : Option String)
    (env : Option (List (String × String))) (penv : PtyEnv) :
    exceptOk (PtySession.spawn session_id cwd env penv) = spawnOk penv := by
  unfold PtySession.spawn spawnOk exceptOk
  cases penv.openptyErr <;> cases penv.spawnErr <;>
    cases penv.writerErr <;> cases penv.readerErr <;> simp

theorem spawn_error_of_not_ok (session_id : String) (cwd : Option String)
    (env : Option (List (String × String))) (penv : PtyEnv)
    (h : spawnOk penv = false) :
    ∃ e, PtySession.spawn session_id cwd env penv = Except.error e := by
  have hok := spawn_ok_iff session_id cwd env penv
  rw [h] at hok
  cases hspawn : PtySession.spawn session_id cwd env penv with
  | ok s => rw [hspawn] at hok; simp [exceptOk] at hok
  | error e => exact ⟨e, rfl⟩

theorem spawn_some_of_ok (session_id : String) (cwd : Option String)
    (env : Option (List (String × String))) (penv : PtyEnv)
    (h : spawnOk penv = true) :
    ∃ s, PtySession.spawn session_id cwd env penv = Except.ok s := by
  have hok := spawn_ok_iff session_id cwd env penv
  rw [h] at hok
  cases hspawn : PtySession.spawn session_id cwd env penv with
  | ok s => exact ⟨s, rfl⟩
  | error e => rw [hspawn] at hok; simp [exceptOk] at hok

/-! ## Registry step lemmas -/

theorem contains_applyOp_eq (st : Registry) (op : Op) (id : String) :
    mapContains (applyOp st op).2 id = stepAlive id (mapContains st id) op := by
  cases op with
  | spawn id2 cwd env penv =>
      by_cases hc : mapContains st id2 = true
      · by_cases hid : id2 = id
        · subst hid
          simp [applyOp, spawn_session, hc, stepAlive]
        · simp [applyOp, spawn_session, hc, stepAlive, hid]
      · have hc2 : mapContains st id2 = false := by
          cases h2 : mapContains st id2 with
          | true => exact absurd h2 hc
          | false => rfl
        cases hs : PtySession.spawn id2 cwd env penv with
        | error e =>
            have hok := spawn_ok_iff id2 cwd env penv
            rw [hs] at hok
            simp [exceptOk] at hok
            by_cases hid : id2 = id
            · subst hid
              simp [applyOp, spawn_session, hc2, hs, stepAlive, hok]
            · simp [applyOp, spawn_session, hc2, hs, stepAlive, hid]
        | ok s =>
            have hok := spawn_ok_iff id2 cwd env penv
            rw [hs] at hok
            simp [exceptOk] at hok
            by_cases hid : id2 = id
            · subst hid
              simp [applyOp, spawn_session, hc2, hs, stepAlive, hok,
                mapContains_mapInsert]
            · simp [applyOp, spawn_session, hc2, hs, stepAlive, hid,
                mapContains_mapInsert]

  | write id2 data =>
      cases hg : mapGet st id2 with
      | none => simp [applyOp, write_to_session, hg, stepAlive]
      | some s =>
          by_cases hid : id2 = id
          · subst hid
            simp [applyOp, write_to_session, hg, stepAlive,
              mapGet_mapInsert, mapContains, hg]
          · simp [applyOp, write_to_session, hg, stepAlive, hid,
              mapContains_mapInsert]
  | resize id2 cols rows =>
      cases hg : mapGet st id2 with
      | none => simp [applyOp, resize_session, hg, stepAlive]
      | some s =>
          by_cases hid : id2 = id
          · subst hid
            simp [applyOp, resize_session, hg, stepAlive,
              mapGet_mapInsert, mapContains, hg]
          · simp [applyOp, resize_session, hg, stepAlive, hid,
              mapContains_mapInsert]
  | close id2 =>
      cases hg : mapGet st id2 with
      | none =>
          by_cases hid : id2 = id
          · subst hid
            simp [applyOp, close_session, hg, stepAlive, mapContains, hg]
          · simp [applyOp, close_session, hg, stepAlive, hid]
      | some s =>
          by_cases hid : id2 = id
          · subst hid
            simp [applyOp, close_session, hg, stepAlive, mapContains_mapRemove]
          · simp [applyOp, close_session, hg, stepAlive, hid,
              mapContains_mapRemove]

theorem contains_runOps (ops : List Op) (st : Registry) (id : String) :
    mapContains (runOps st ops) id = specAlive id ops (mapContains st id) := by
  induction ops generalizing st with
  | nil => rfl
  | cons op rest ih =>
      show mapContains (runOps (applyOp st op).2 rest) id = _
      rw [ih, contains_applyOp_eq]
      rfl

theorem specAlive_false_of_no_spawn (id : String) (ops : List Op)
    (h : ∀ op ∈ ops, isSpawnOf op id = false) :
    specAlive id ops false = false := by
  induction ops with
  | nil => rfl
  | cons op rest ih =>
      have hop := h op (by simp)
      have hstep : stepAlive id false op = false := by
        cases op with
        | spawn id2 cwd env penv =>
            simp [isSpawnOf] at hop
            simp [stepAlive, hop]
        | write id2 data => rfl
        | resize id2 cols rows => rfl
        | close id2 =>
            simp only [stepAlive]
            split <;> rfl
      show specAlive id rest (stepAlive id false op) = false
      rw [hstep]
      exact ih (fun op2 h2 => h op2 (by simp [h2]))

theorem envValue_append_last (l : List (String × String)) (k v : String) :
    envValue (l ++ [(k, v)]) k = some v := by
  induction l with
  | nil => simp [envValue]
  | cons p rest ih =>
      obtain ⟨k2, v2⟩ := p
      simp [envValue, ih]

/-! ## Claim theorems -/

/-- C1: for every registry state and identifier already present,
spawn_session fails with the duplicate error, does not overwrite the
entry, and leaves the whole registry state (hence the existing session,
its writer, master and liveness flag) unchanged. -/
theorem spawn_session_duplicate (st : Registry) (id : String)
    (cwd : Option String) (env : Option (List (String × String)))
    (penv : PtyEnv) (h : mapContains st id = true) :
    spawn_session st id cwd env penv =
      (Except.error ("Session " ++ id ++ " already exists"), st) ∧
    mapGet (spawn_session st id cwd env penv).2 id = mapGet st id := by
  constructor
  · simp [spawn_session, h]
  · simp [spawn_session, h]

/-- C1 witness: a duplicate spawn against the sample registry. -/
theorem spawn_session_duplicate_witness :
    mapContains sampleRegistry "t1" = true ∧
    spawn_session sampleRegistry "t1" none none samplePtyEnv =
      (Except.error ("Session " ++ "t1" ++ " already exists"),
        sampleRegistry) :=
  ⟨by decide,
    (spawn_session_duplicate sampleRegistry "t1" none none samplePtyEnv
      (by decide)).1⟩

/-- C3: writing or resizing an absent identifier fails with the not-found
error and returns the registry completely unchanged (no observable side
effect); for a present identifier both delegate to the addressed session
writes and resizes. -/
theorem write_resize_unknown (st : Registry) (id : String) :
    (mapContains st id = false →
      (∀ data, write_to_session st id data =
        (Except.error ("Session " ++ id ++ " not found"), st)) ∧
      (∀ cols rows, resize_session st id cols rows =
        (Except.error ("Session " ++ id ++ " not found"), st))) ∧
    (∀ s, mapGet st id = some s →
      (∀ data, write_to_session st id data =
        ((s.write data).1, mapInsert st id (s.write data).2)) ∧
      (∀ cols rows, resize_session st id cols rows =
        ((s.resize cols rows).1, mapInsert st id (s.resize cols rows).2))) := by
  constructor
  · intro h
    have hg := mapGet_eq_none_of_not_contains st id h
    exact ⟨fun data => by simp [write_to_session, hg],
      fun cols rows => by simp [resize_session, hg]⟩
  · intro s hs
    exact ⟨fun data => by simp [write_to_session, hs],
      fun cols rows => by simp [resize_session, hs]⟩

/-- C3 witness: write and resize against an empty registry. -/
theorem write_resize_unknown_witness :
    mapContains emptyRegistry "ghost" = false ∧
    write_to_session emptyRegistry "ghost" [104] =
      (Except.error ("Session " ++ "ghost" ++ " not found"),
        emptyRegistry) ∧
    resize_session emptyRegistry "ghost" 80 24 =
      (Except.error ("Session " ++ "ghost" ++ " not found"),
        emptyRegistry) :=
  ⟨by decide,
    ((write_resize_unknown emptyRegistry "ghost").1 (by decide)).1 [104],
    ((write_resize_unknown emptyRegistry "ghost").1 (by decide)).2 80 24⟩

/-- C8: write performs the full write then the flush under the writer
lock; it succeeds exactly when the underlying stream rejects neither, in
which case the full byte sequence was appended to the stream; a rejected
write or flush is reported to the caller with the formatted error; the
result is always a single all-or-nothing acknowledgement. -/
theorem write_full_or_error (s : PtySession) (data : List UInt8) :
    ((s.write data).1 = Except.ok () ↔
      s.writer.writeErr = none ∧ s.writer.flushErr = none) ∧
    ((s.write data).1 = Except.ok () →
      (s.write data).2 =
        { s with writer := { s.writer with buf := s.writer.buf ++ data } }) ∧
    (∀ e, s.writer.writeErr = some e →
      s.write data = (Except.error ("Failed to write to PTY: " ++ e), s)) ∧
    (∀ e, s.writer.writeErr = none → s.writer.flushErr = some e →
      (s.write data).1 = Except.error ("Failed to flush PTY: " ++ e)) ∧
    ((∃ e, (s.write data).1 = Except.error e) ∨
      (s.write data).1 = Except.ok ()) := by
  cases hw : s.writer.writeErr with
  | some e => simp [PtySession.write, hw]
  | none =>
      cases hf : s.writer.flushErr with
      | some e => simp [PtySession.write, hw, hf]
      | none => simp [PtySession.write, hw, hf]

/-- C8 witness: a healthy sample session accepts a two-byte write. -/
theorem write_full_or_error_witness :
    (sampleSession.write [104, 105]).1 = Except.ok () :=
  (write_full_or_error sampleSession [104, 105]).1.mpr ⟨rfl, rfl⟩

/-- C9: spawn allocates the PTY with the fixed 80x24 zero-pixel geometry;
the TERM variable is forced to xterm-256color after (hence overriding) any
caller-supplied entries; the shell is invoked with -l -i (interactive
login); spawn succeeds exactly when PTY allocation, shell start, writer
acquisition and reader cloning all succeed, and an Except error carries no
partial session. -/
theorem spawn_spec (session_id : String) (cwd : Option String)
    (env : Option (List (String × String))) (penv : PtyEnv) :
    exceptOk (PtySession.spawn session_id cwd env penv) = spawnOk penv ∧
    initialPtySize =
      { rows := 24, cols := 80, pixel_width := 0, pixel_height := 0 } ∧
    (∀ s, PtySession.spawn session_id cwd env penv = Except.ok s →
      s.master.size = initialPtySize ∧ s.running = true ∧
      s.session_id = session_id ∧ s.writer.buf = []) ∧
    (∀ shell, envValue (buildCommand shell cwd env).envs "TERM" =
      some "xterm-256color") ∧
    (∀ shell, (buildCommand shell cwd env).args = ["-l", "-i"] ∧
      (buildCommand shell cwd env).cmdCwd = cwd) := by
  refine ⟨spawn_ok_iff session_id cwd env penv, rfl, ?_, ?_, ?_⟩
  · intro s hs
    cases ho : penv.openptyErr <;> cases hsp : penv.spawnErr <;>
      cases hwr : penv.writerErr <;> cases hrd : penv.readerErr <;>
        simp [PtySession.spawn, ho, hsp, hwr, hrd] at hs
    subst hs
    exact ⟨rfl, rfl, rfl, rfl⟩
  · intro shell
    exact envValue_append_last _ "TERM" "xterm-256color"
  · intro shell
    exact ⟨rfl, rfl⟩

/-- C9 witness: spawn against the all-healthy sample oracle, and the TERM
override against a caller environment that itself sets TERM. -/
theorem spawn_spec_witness :
    exceptOk (PtySession.spawn "t1" none none samplePtyEnv) =
      spawnOk samplePtyEnv ∧
    envValue (buildCommand "/bin/bash" none
      (some [("TERM", "dumb")])).envs "TERM" = some "xterm-256color" :=
  ⟨(spawn_spec "t1" none none samplePtyEnv).1,
    (spawn_spec "t1" none (some [("TERM", "dumb")])
      samplePtyEnv).2.2.2.1 "/bin/bash"⟩

/-- C10: dropping a session invokes close; close clears the liveness flag,
touches nothing else, and is idempotent, so any number of close or drop
calls leaves the flag cleared; close returns without interacting with the
reader task at all (it only stores the flag). -/
theorem drop_close_idempotent (s : PtySession) :
    PtySession.drop s = s.close ∧
    (s.close).running = false ∧
    (s.close).close = s.close ∧
    (s.close).writer = s.writer ∧
    (s.close).master = s.master ∧
    (s.close).session_id = s.session_id :=
  ⟨rfl, rfl, rfl, rfl, rfl, rfl⟩

/-- C4: along every history of registry operations applied from the empty
registry, has_session reports exactly the spec-side liveness fold: the
identifier is live precisely when the most recent successful spawn for it
has not been followed by a close for it (a close for a live identifier is
the successful close that kills it; a spawn succeeds exactly when the
identifier is dead and every external spawn call succeeds). -/
theorem has_session_reflects_history (ops : List Op) (id : String) :
    has_session (runOps emptyRegistry ops) id = specAlive id ops false := by
  have h := contains_runOps ops emptyRegistry id
  simpa [has_session, emptyRegistry, mapContains, mapGet] using h

/-- C2: closing a present identifier removes the entry and succeeds in one
critical section; immediately afterwards the identifier is absent from
list_sessions and every subsequent write, resize or close addressed to it
fails with the not-found error, and it stays absent along any further
history containing no new spawn for it; closing an absent identifier fails
with the not-found error and leaves the registry unchanged. -/
theorem close_session_spec (st : Registry) (id : String) :
    (mapContains st id = true →
      close_session st id = (Except.ok (), mapRemove st id) ∧
      id ∉ list_sessions (close_session st id).2 ∧
      mapContains (close_session st id).2 id = false ∧
      (∀ data, write_to_session (close_session st id).2 id data =
        (Except.error ("Session " ++ id ++ " not found"),
          (close_session st id).2)) ∧
      (∀ cols rows, resize_session (close_session st id).2 id cols rows =
        (Except.error ("Session " ++ id ++ " not found"),
          (close_session st id).2)) ∧
      close_session (close_session st id).2 id =
        (Except.error ("Session " ++ id ++ " not found"),
          (close_session st id).2) ∧
      (∀ ops, (∀ op ∈ ops, isSpawnOf op id = false) →
        has_session (runOps (close_session st id).2 ops) id = false)) ∧
    (mapContains st id = false →
      close_session st id =
        (Except.error ("Session " ++ id ++ " not found"), st)) := by
  constructor
  · intro h
    obtain ⟨s, hs⟩ : ∃ s, mapGet st id = some s := by
      cases hg : mapGet st id with
      | none => rw [mapContains, hg] at h; simp at h
      | some s => exact ⟨s, rfl⟩
    have hcl : close_session st id = (Except.ok (), mapRemove st id) := by
      simp [close_session, hs]
    have hgone : mapGet (mapRemove st id) id = none := by
      simp [mapGet_mapRemove]
    refine ⟨hcl, ?_, ?_, ?_, ?_, ?_, ?_⟩
    · rw [hcl]
      rw [mem_list_sessions_iff, mapContains_mapRemove]
      simp
    · rw [hcl]
      simp [mapContains_mapRemove]
    · intro data
      rw [hcl]
      simp [write_to_session, hgone]
    · intro cols rows
      rw [hcl]
      simp [resize_session, hgone]
    · rw [hcl]
      simp [close_session, hgone]
    · intro ops hops
      rw [hcl]
      show mapContains (runOps (mapRemove st id) ops) id = false
      rw [contains_runOps, mapContains_mapRemove]
      simp [specAlive_false_of_no_spawn id ops hops]
  · intro h
    have hg := mapGet_eq_none_of_not_contains st id h
    simp [close_session, hg]

/-- C2 witness: closing the sample registry entry, then the not-found
failure of an immediate further close, and absence along a further
history. -/
theorem close_session_spec_witness :
    mapContains sampleRegistry "t1" = true ∧
    close_session sampleRegistry "t1" =
      (Except.ok (), mapRemove sampleRegistry "t1") ∧
    close_session (close_session sampleRegistry "t1").2 "t1" =
      (Except.error ("Session " ++ "t1" ++ " not found"),
        (close_session sampleRegistry "t1").2) ∧
    has_session (runOps (close_session sampleRegistry "t1").2
      [Op.close "t1", Op.write "t1" [104]]) "t1" = false :=
  ⟨by decide,
    ((close_session_spec sampleRegistry "t1").1 (by decide)).1,
    ((close_session_spec sampleRegistry "t1").1 (by decide)).2.2.2.2.2.1,
    ((close_session_spec sampleRegistry "t1").1 (by decide)).2.2.2.2.2.2
      [Op.close "t1", Op.write "t1" [104]] (by decide)⟩

/-! ## Reader loop lemmas -/

theorem read_output_cons_stop (session_id : String) (running : Nat → Bool)
    (r : ReadResult) (rest : List ReadResult) (h : running 0 = false) :
    read_output session_id running (r :: rest) = [] := by
  simp [read_output, h]

theorem read_output_cons_eof (session_id : String) (running : Nat → Bool)
    (rest : List ReadResult) (h : running 0 = true) :
    read_output session_id running (ReadResult.ok [] :: rest) =
      [TerminalEvent.exit session_id (some 0)] := by
  simp [read_output, h]

theorem read_output_cons_data (session_id : String) (running : Nat → Bool)
    (b : UInt8) (bs : List UInt8) (rest : List ReadResult)
    (h : running 0 = true) :
    read_output session_id running (ReadResult.ok (b :: bs) :: rest) =
      TerminalEvent.output session_id (b :: bs) ::
        read_output session_id (fun i => running (i + 1)) rest := by
  simp [read_output, h]

theorem read_output_cons_err (session_id : String) (running : Nat → Bool)
    (e : String) (rest : List ReadResult) (h : running 0 = true) :
    read_output session_id running (ReadResult.err e :: rest) =
      [TerminalEvent.exit session_id none] := by
  simp [read_output, h]

theorem outputsOf_cons_output (session_id : String) (d : List UInt8)
    (events : List TerminalEvent) :
    outputsOf (TerminalEvent.output session_id d :: events) =
      d :: outputsOf events := by
  simp [outputsOf]

theorem outputsOf_cons_exit (session_id : String) (c : Option Int)
    (events : List TerminalEvent) :
    outputsOf (TerminalEvent.exit session_id c :: events) =
      outputsOf events := by
  simp [outputsOf]

/-- C5: the reader loop emits, as its output events, exactly the payloads
of the positive reads of the processed prefix of the trace, one event per
positive read, verbatim and in reading order; every emitted payload is
nonempty and at most the buffer size when every read respects the buffer
size. -/
theorem read_output_verbatim (session_id : String) (running : Nat → Bool)
    (reads : List ReadResult)
    (hval : ∀ r ∈ reads, (dataOf r).length ≤ readBufferSize) :
    ∃ k, k ≤ reads.length ∧
      (∀ r ∈ reads.take k, isPositive r = true) ∧
      outputsOf (read_output session_id running reads) =
        (reads.take k).map dataOf ∧
      ∀ d ∈ outputsOf (read_output session_id running reads),
        0 < d.length ∧ d.length ≤ readBufferSize := by
  revert hval
  induction reads generalizing running with
  | nil =>
      intro hval
      exact ⟨0, Nat.le_refl 0, by simp, by simp [read_output, outputsOf],
        by simp [read_output, outputsOf]⟩
  | cons r rest ih =>
      intro hval
      by_cases h0 : running 0 = true
      · cases r with
        | ok data =>
            cases data with
            | nil =>
                refine ⟨0, Nat.zero_le _, by simp, ?_, ?_⟩
                · simp [read_output_cons_eof _ _ _ h0, outputsOf]
                · simp [read_output_cons_eof _ _ _ h0, outputsOf]
            | cons b bs =>
                obtain ⟨k, hk, hpos, hout, hbound⟩ :=
                  ih (fun i => running (i + 1))
                    (fun r2 h2 => hval r2 (List.mem_cons_of_mem _ h2))
                refine ⟨k + 1, Nat.succ_le_succ hk, ?_, ?_, ?_⟩
                · intro r2 hr2
                  rw [List.take_succ_cons] at hr2
                  rcases List.mem_cons.mp hr2 with h | h
                  · subst h; rfl
                  · exact hpos r2 h
                · rw [read_output_cons_data _ _ _ _ _ h0,
                    outputsOf_cons_output, hout, List.take_succ_cons,
                    List.map_cons]
                  rfl
                · intro d hd
                  rw [read_output_cons_data _ _ _ _ _ h0,
                    outputsOf_cons_output] at hd
                  rcases List.mem_cons.mp hd with h | h
                  · subst h
                    refine ⟨by simp, ?_⟩
                    have hb := hval (ReadResult.ok (b :: bs))
                      (List.mem_cons_self _ _)
                    simpa [dataOf] using hb
                  · exact hbound d h
        | err e =>
            refine ⟨0, Nat.zero_le _, by simp, ?_, ?_⟩
            · simp [read_output_cons_err _ _ _ _ h0, outputsOf]
            · simp [read_output_cons_err _ _ _ _ h0, outputsOf]
      · rw [Bool.not_eq_true] at h0
        refine ⟨0, Nat.zero_le _, by simp, ?_, ?_⟩
        · simp [read_output_cons_stop _ _ _ _ h0, outputsOf]
        · simp [read_output_cons_stop _ _ _ _ h0, outputsOf]

/-- C5 witness: two positive reads with the loop never cancelled. -/
theorem read_output_verbatim_witness :
    (∀ r ∈ ([ReadResult.ok [104], ReadResult.ok [105, 106]] :
        List ReadResult), (dataOf r).length ≤ readBufferSize) ∧
    ∃ k, k ≤ ([ReadResult.ok [104], ReadResult.ok [105, 106]] :
        List ReadResult).length ∧
      (∀ r ∈ ([ReadResult.ok [104], ReadResult.ok [105, 106]] :
          List ReadResult).take k, isPositive r = true) ∧
      outputsOf (read_output "t1" (fun _ => true)
          [ReadResult.ok [104], ReadResult.ok [105, 106]]) =
        (([ReadResult.ok [104], ReadResult.ok [105, 106]] :
          List ReadResult).take k).map dataOf ∧
      ∀ d ∈ outputsOf (read_output "t1" (fun _ => true)
          [ReadResult.ok [104], ReadResult.ok [105, 106]]),
        0 < d.length ∧ d.length ≤ readBufferSize :=
  ⟨by decide,
    read_output_verbatim "t1" (fun _ => true)
      [ReadResult.ok [104], ReadResult.ok [105, 106]] (by decide)⟩

/-- C6: after any prefix of positive reads processed with the liveness
flag still set, a zero-byte read makes the loop emit exactly one exit
event with the sentinel code 0 and terminate, and a read error makes it
emit exactly one exit event with an absent code and terminate; in both
cases the exit event is the last event and nothing from the remainder of
the trace is ever processed. -/
theorem read_output_terminal (session_id : String) (running : Nat → Bool)
    (pre rest : List ReadResult) (e : String)
    (hpos : ∀ r ∈ pre, isPositive r = true)
    (hrun : ∀ i, i ≤ pre.length → running i = true) :
    read_output session_id running (pre ++ ReadResult.ok [] :: rest) =
      pre.map (fun r => TerminalEvent.output session_id (dataOf r)) ++
        [TerminalEvent.exit session_id (some 0)] ∧
    read_output session_id running (pre ++ ReadResult.err e :: rest) =
      pre.map (fun r => TerminalEvent.output session_id (dataOf r)) ++
        [TerminalEvent.exit session_id none] := by
  induction pre generalizing running with
  | nil =>
      have h0 : running 0 = true := hrun 0 (Nat.zero_le _)
      constructor
      · simpa using read_output_cons_eof session_id running rest h0
      · simpa using read_output_cons_err session_id running e rest h0
  | cons r pre2 ih =>
      have hrp : isPositive r = true := hpos r (List.mem_cons_self _ _)
      cases r with
      | ok data =>
          cases data with
          | nil => simp [isPositive] at hrp
          | cons b bs =>
              have h0 : running 0 = true := hrun 0 (Nat.zero_le _)
              have ih2 := ih (fun i => running (i + 1))
                (fun r2 h2 => hpos r2 (List.mem_cons_of_mem _ h2))
                (fun i hi => hrun (i + 1) (Nat.succ_le_succ hi))
              constructor
              · rw [List.cons_append,
                  read_output_cons_data _ _ _ _ _ h0, ih2.1]
                simp [dataOf]
              · rw [List.cons_append,
                  read_output_cons_data _ _ _ _ _ h0, ih2.2]
                simp [dataOf]
      | err e2 => simp [isPositive] at hrp

/-- C6 witness: one positive read, then end-of-stream or a read error. -/
theorem read_output_terminal_witness :
    read_output "t1" (fun _ => true)
      ([ReadResult.ok [104]] ++ ReadResult.ok [] :: []) =
      ([ReadResult.ok [104]] : List ReadResult).map
        (fun r => TerminalEvent.output "t1" (dataOf r)) ++
        [TerminalEvent.exit "t1" (some 0)] ∧
    read_output "t1" (fun _ => true)
      ([ReadResult.ok [104]] ++ ReadResult.err "broken" :: []) =
      ([ReadResult.ok [104]] : List ReadResult).map
        (fun r => TerminalEvent.output "t1" (dataOf r)) ++
        [TerminalEvent.exit "t1" none] :=
  read_output_terminal "t1" (fun _ => true) [ReadResult.ok [104]] []
    "broken" (by decide) (fun i _ => rfl)

/-- C7: the loop checks the liveness flag before every read; once the flag
is observed cleared after a prefix of positive reads, the loop terminates
silently, emitting only the output events of that prefix and no exit
event, regardless of anything left in the trace. -/
theorem read_output_cancel (session_id : String) (running : Nat → Bool)
    (pre rest : List ReadResult)
    (hpos : ∀ r ∈ pre, isPositive r = true)
    (hrun : ∀ i, i < pre.length → running i = true)
    (hstop : running pre.length = false) :
    read_output session_id running (pre ++ rest) =
      pre.map (fun r => TerminalEvent.output session_id (dataOf r)) := by
  induction pre generalizing running with
  | nil =>
      cases rest with
      | nil => rfl
      | cons r rest2 =>
          simpa using read_output_cons_stop session_id running r rest2 hstop
  | cons r pre2 ih =>
      have hrp : isPositive r = true := hpos r (List.mem_cons_self _ _)
      cases r with
      | ok data =>
          cases data with
          | nil => simp [isPositive] at hrp
          | cons b bs =>
              have h0 : running 0 = true := hrun 0 (Nat.succ_pos _)
              rw [List.cons_append, read_output_cons_data _ _ _ _ _ h0,
                ih (fun i => running (i + 1))
                  (fun r2 h2 => hpos r2 (List.mem_cons_of_mem _ h2))
                  (fun i hi => hrun (i + 1) (Nat.succ_lt_succ hi))
                  hstop]
              simp [dataOf]
      | err e2 => simp [isPositive] at hrp

/-- C7 witness: the flag is cleared after the first iteration; the pending
end-of-stream read is never processed and no exit event is emitted. -/
theorem read_output_cancel_witness :
    read_output "t1" (fun i => i == 0)
      ([ReadResult.ok [104]] ++ [ReadResult.ok []]) =
      ([ReadResult.ok [104]] : List ReadResult).map
        (fun r => TerminalEvent.output "t1" (dataOf r)) :=
  read_output_cancel "t1" (fun i => i == 0) [ReadResult.ok [104]]
    [ReadResult.ok []] (by decide) (by decide) (by decide)
